import Mathlib

/-!
# Verification of the Spark/Meraki chat-bot relay (`meraki_bot_1.py`)

Shallow embedding of the webhook command relay: the entry point
`lambda_handler` extracts message/room ids from an inbound event, fetches the
message text, matches it against literal command strings, runs one command
handler, and posts results back to the chat room.  External HTTP calls are
modelled by an `Env` of call results plus an explicit trace (`List Call`) of
the calls a run performs; Python exceptions are modelled with `Except PyErr`.
-/

namespace MerakiBot

/-- Python exception kinds that the embedded code can raise:
`keyError` for a missing dict key (the spec calls the entry-point case
`MalformedEventError`), `typeError` for indexing a `str` like a dict,
`connectionError` for a failed HTTP call, `jsonError` for unparsable JSON. -/
inductive PyErr
  | keyError
  | typeError
  | connectionError
  | jsonError
deriving DecidableEq, Repr

/-! ## Python string primitives used by the source -/

/-- Python `str.lower()` (char-wise, as used on ASCII client descriptions). -/
def pyLower (s : String) : String := ⟨s.data.map Char.toLower⟩

/-- Python `str.replace(a, b)` for single-character `a`, `b` (the source only
replaces the single characters space and dot). -/
def pyReplaceChar (s : String) (a b : Char) : String :=
  ⟨s.data.map (fun c => if c = a then b else c)⟩

/-- Python slice `s[:n]`. -/
def pySlice (s : String) (n : Nat) : String := ⟨s.data.take n⟩

/-- Python `s.startswith(pre)`. -/
def pyStartsWith (s pre : String) : Bool := pre.data.isPrefixOf s.data

/-- Helper for Python `s.split(sep, 1)[1]`: the part of `s` after the first
occurrence of `sep`.  The source only evaluates it under a
`startswith(sep)` guard, so the occurrence exists there. -/
def splitAfterFirstAux (sep : List Char) : List Char → List Char
  | [] => []
  | c :: cs =>
    if sep.isPrefixOf (c :: cs) then (c :: cs).drop sep.length
    else splitAfterFirstAux sep cs

/-- Python `s.split(sep, 1)[1]` (see `splitAfterFirstAux`). -/
def pySplitAfterFirst (s sep : String) : String := ⟨splitAfterFirstAux sep.data s.data⟩

/-- The source guards the rick-roll argument with `num_to_dial is not None`.
`str.split` always returns strings, never `None`, so on a `str` value this
Python test is identically true; the embedding records that fact. -/
def pyStrIsNotNone (_ : String) : Bool := true

/-- Literal substring search, one position: `pat.isPrefixOf l`. Searching every
suffix of `l` gives Python `sub in s` / `re.search` on a metacharacter-free
pattern (used for the `guest_wireless` tag regex, which has no
metacharacters). -/
def litSearchAux (pat : List Char) : List Char → Bool
  | [] => pat.isPrefixOf []
  | c :: cs => pat.isPrefixOf (c :: cs) || litSearchAux pat cs

/-- Python `re.search(pat, s) is not None` for a pattern without
metacharacters: literal substring containment. -/
def litSearch (pat s : String) : Bool := litSearchAux pat.data s.data

/-- One-position match of a regex pattern whose only metacharacter is `.`
(any single character), as in the source's `re.compile('10.4.17')`:
a pattern char `.` matches any subject char, anything else matches
literally. -/
def reMatchAt : List Char → List Char → Bool
  | [], _ => true
  | _ :: _, [] => false
  | p :: ps, c :: cs => (p == '.' || p == c) && reMatchAt ps cs

/-- Search `reMatchAt` at every position (Python `re.search(...) is not None`
for a dot-wildcard pattern). -/
def reSearchAux (pat : List Char) : List Char → Bool
  | [] => reMatchAt pat []
  | c :: cs => reMatchAt pat (c :: cs) || reSearchAux pat cs

/-- Python `re.search(pat, s) is not None` where `.` in `pat` matches any
character (the source's subnet check `re.compile('10.4.17').search(ip)`). -/
def reSearch (pat s : String) : Bool := reSearchAux pat.data s.data

/-- The char list of the subnet pattern `"10.4.17"`. -/
def pat107 : List Char := ['1', '0', '.', '4', '.', '1', '7']

/-- A single-quote character, written via its code point. -/
def squoteChar : Char := Char.ofNat 39

/-- Python `repr` of one string in a rendered list: the string wrapped in
single quotes (tags in this code base contain no quotes to escape). -/
def quotedChars (t : String) : List Char := squoteChar :: (t.data ++ [squoteChar])

/-- The comma-separated inside of Python `str` applied to a list of strings. -/
def pyStrInner : List String → List Char
  | [] => []
  | [t] => quotedChars t
  | t :: rest => quotedChars t ++ (',' :: ' ' :: pyStrInner rest)

/-- Python `str(tags)` for a list of tag strings, e.g.
`str(['a', 'b'])`: brackets around the quoted, comma-separated items.
This is what the source feeds to the `guest_wireless` regex search. -/
def pyStrList (l : List String) : String := ⟨'[' :: (pyStrInner l ++ [']'])⟩

/-- Python string comparison `a <= b`: lexicographic by code point. -/
def listLe : List Char → List Char → Bool
  | [], _ => true
  | _ :: _, [] => false
  | c :: cs, d :: ds =>
    if c.toNat < d.toNat then true
    else if c.toNat = d.toNat then listLe cs ds
    else false

/-! ## Data model -/

/-- A device row from `merakiapi.getnetworkdevices` / `getorginventory`:
fields `model`, `serial`, `mac`, `tags` read by the source. -/
structure DeviceRow where
  model : String
  serial : String
  mac : String
  tags : List String
deriving DecidableEq, Repr

/-- An element of the decoded device-list response.  Iterating the decoded
JSON can yield either device dicts or — when the API answers with an
`errors` object — the bare string key `'errors'`, which is exactly what the
source's `if row == 'errors'` test looks for. -/
inductive DevEntry
  | dict (d : DeviceRow)
  | str (s : String)
deriving DecidableEq, Repr

/-- A network row from `merakiapi.getnetworklist`: fields `id`, `name`,
`tags` read by the source. -/
structure NetworkRow where
  id : String
  name : String
  tags : List String
deriving DecidableEq, Repr

/-- An SSID row from `merakiapi.getssids`: `number`, `name`, `enabled`. -/
structure SsidRow where
  number : Nat
  name : String
  enabled : Bool
deriving DecidableEq, Repr

/-- A client row from `merakiapi.getclients`: `description`, `ip`, `mac`
and the nested `usage` dict's `sent` and `recv` byte counts. -/
structure ClientRow where
  description : String
  ip : String
  mac : String
  sent : Nat
  recv : Nat
deriving DecidableEq, Repr

/-- A PrettyTable value: header row plus data rows, every cell rendered to a
string.  Only the header names and the row sequence matter to the spec. -/
structure Table where
  headers : List String
  rows : List (List String)
deriving DecidableEq, Repr

/-- The body of a Spark `POST /messages`: either plain text or a rendered
table (the source posts `str(table)` / `table.get_string(...)`). -/
inductive Payload
  | text (s : String)
  | table (t : Table)
deriving DecidableEq, Repr

/-- One outgoing HTTP call, in program order: the trace of a run. -/
inductive Call
  | getMessage (msgId : String)
  | getInventory
  | getNetworks
  | getSsids
  | getNetworkDevices
  | getClients (serial : String) (window : Nat)
  | tropoPost (number : String)
  | postSpark (roomId : String) (payload : Payload)
deriving DecidableEq, Repr

/-- The nested `data` object of the inbound Spark webhook event; `none`
models an absent key (Python raises `KeyError` on access). -/
structure EventData where
  id : Option String
  roomId : Option String
deriving DecidableEq, Repr

/-- The inbound webhook event: carries the optional nested `data` object. -/
structure SparkEvent where
  data : Option EventData
deriving DecidableEq, Repr

/-- Results of the external HTTP endpoints for one invocation.
`messageText` is the combined result of the Spark message GET plus
`json.loads(...)['text']`; each Meraki fetcher yields its decoded rows or
an exception; `clients` answers `getclients(serial, timestamp)`;
`tropo` is the Tropo POST's status code. -/
structure Env where
  messageText : Except PyErr String
  inventory : Except PyErr (List DeviceRow)
  networks : Except PyErr (List NetworkRow)
  ssids : Except PyErr (List SsidRow)
  netDevices : Except PyErr (List DevEntry)
  clients : String → Nat → Except PyErr (List ClientRow)
  tropo : Except PyErr Nat

/-- Result type of `get_ap_list` / `get_guest_ap_list`: Python lets them
return either the string `'errors'` or a list of serial numbers. -/
inductive ApListResult
  | errors
  | serials (l : List String)
deriving DecidableEq, Repr

/-- Python `for sn in sn_list` over an `ApListResult` value: iterating the
string `'errors'` yields its six characters, each then used as a device
serial; iterating a list yields its elements. -/
def iterSerials : ApListResult → List String
  | .errors => ["e", "r", "r", "o", "r", "s"]
  | .serials l => l

/-! ## Filters (from the source) -/

/-- `model[:2] == 'MR'`: the access-point model-prefix test. -/
def mrKeep (d : DeviceRow) : Bool := pySlice d.model 2 == "MR"

/-- The guest-AP condition of `get_guest_ap_list`:
`model[:2] == 'MR' and re.compile('guest_wireless').search(str(row['tags'])) is not None` —
a substring search over the rendered tag list, not set membership. -/
def guestKeep (d : DeviceRow) : Bool :=
  mrKeep d && litSearch "guest_wireless" (pyStrList d.tags)

/-- The subnet test of `spark_get_guest_clients_cmd`:
`re.compile('10.4.17').search(str(row['ip'])) is not None`.  The unescaped
dots are regex wildcards. -/
def subnetMatch (r : ClientRow) : Bool := reSearch "10.4.17" r.ip

/-- The rows `spark_get_guest_clients_cmd` counts and tabulates: those whose
IP passes the `10.4.17` regex search. -/
def subnetFilter (rows : List ClientRow) : List ClientRow := rows.filter subnetMatch

/-- `get_ap_list(api_key, net_id)` applied to the decoded device list: walks
the rows in order; a row equal to the string `'errors'` makes the whole
function return `'errors'`; any other string row raises `TypeError` at the
`row['model']` access; a device row's serial is kept iff its model starts
with `MR`. -/
def get_ap_list : List DevEntry → Except PyErr ApListResult
  | [] => .ok (.serials [])
  | .str s :: _ => if s = "errors" then .ok .errors else .error .typeError
  | .dict d :: rest =>
    match get_ap_list rest with
    | .ok (.serials l) => .ok (.serials (if mrKeep d then d.serial :: l else l))
    | other => other

/-- `get_guest_ap_list(api_key, net_id)` applied to the decoded device list:
as `get_ap_list` but a serial is kept iff the model starts with `MR` AND
the `guest_wireless` regex finds a match in `str(row['tags'])`. -/
def get_guest_ap_list : List DevEntry → Except PyErr ApListResult
  | [] => .ok (.serials [])
  | .str s :: _ => if s = "errors" then .ok .errors else .error .typeError
  | .dict d :: rest =>
    match get_guest_ap_list rest with
    | .ok (.serials l) => .ok (.serials (if guestKeep d then d.serial :: l else l))
    | other => other

/-! ## Usage aggregation (from `spark_get_top_talkers_cmd`) -/

/-- `row['description'].lower().replace(' ', '_').replace('.', '_')`. -/
def normalize (d : String) : String :=
  pyReplaceChar (pyReplaceChar (pyLower d) ' ' '_') '.' '_'

/-- `row['usage']['sent'] + row['usage']['recv']`. -/
def traf (r : ClientRow) : Nat := r.sent + r.recv

/-- One Python-dict update of `client_traffic`: keys are unique in a dict, so
if `k` is present its value grows by `v` in place, otherwise `(k, v)` is
appended (dicts preserve insertion order). -/
def trafficAdd : List (String × Nat) → String → Nat → List (String × Nat)
  | [], k, v => [(k, v)]
  | (k', v') :: rest, k, v =>
    if k = k' then (k', v' + v) :: rest else (k', v') :: trafficAdd rest k v

/-- The body of the aggregation loop: normalize the description and add the
row's sent+received bytes under that key. -/
def addClientRow (m : List (String × Nat)) (r : ClientRow) : List (String × Nat) :=
  trafficAdd m (normalize r.description) (traf r)

/-- The `client_traffic` dict after aggregating all fetched client rows. -/
def client_traffic (rows : List ClientRow) : List (String × Nat) :=
  rows.foldl addClientRow []

/-- First-match lookup in an association list (Python dict lookup; the lists
built by `trafficAdd` have unique keys). -/
def lookupKey (k : String) : List (String × Nat) → Option Nat
  | [] => none
  | (k', v) :: rest => if k = k' then some v else lookupKey k rest

/-! ## Table sorting.

Modelled from the spec: the Table Formatter is realized by the external
`prettytable` library, whose source is not part of this repository.  The spec
(§2, §3) says it "supports stable sort by a named column, ascending or
descending"; `get_string(sortby=col)` sorts rows by that column's values,
ascending unless `reversesort` is set.  We model it as a stable insertion
sort of the typed rows by the sort column, before rendering. -/

/-- Ascending order on network rows by the `Network Name` column
(Python string comparison). -/
def nameLe (a b : NetworkRow) : Prop := listLe a.name.data b.name.data = true

instance : DecidableRel nameLe := fun _ _ => inferInstanceAs (Decidable (_ = true))

/-- Descending order on aggregation entries by the usage value (the
`reversesort = True` numeric sort of the top-talkers table). -/
def usageGe (a b : String × Nat) : Prop := b.2 ≤ a.2

instance : DecidableRel usageGe := fun _ _ => inferInstanceAs (Decidable (_ ≤ _))

/-! ## Command handlers -/

/-- `spark_get_inventory_cmd`: fetch the org inventory, post one table. -/
def spark_get_inventory_cmd (env : Env) (room : String) :
    List Call × Except PyErr Unit :=
  match env.inventory with
  | .error e => ([Call.getInventory], .error e)
  | .ok rows =>
    ([Call.getInventory,
      Call.postSpark room (.table ⟨["Model", "Serial Number", "Mac Address"],
        rows.map (fun d => [d.model, d.serial, d.mac])⟩)], .ok ())

/-- `spark_get_networks_cmd`: fetch the network list, post one table rendered
with `get_string(sortby="Network Name")` (ascending). -/
def spark_get_networks_cmd (env : Env) (room : String) :
    List Call × Except PyErr Unit :=
  match env.networks with
  | .error e => ([Call.getNetworks], .error e)
  | .ok rows =>
    ([Call.getNetworks,
      Call.postSpark room (.table ⟨["Network ID", "Network Name", "Tags"],
        (List.insertionSort nameLe rows).map
          (fun r => [r.id, r.name, pyStrList r.tags])⟩)], .ok ())

/-- `spark_get_ssids_cmd`: fetch the SSID list, post one table. -/
def spark_get_ssids_cmd (env : Env) (room : String) :
    List Call × Except PyErr Unit :=
  match env.ssids with
  | .error e => ([Call.getSsids], .error e)
  | .ok rows =>
    ([Call.getSsids,
      Call.postSpark room (.table ⟨["SSID #", "SSID Name", "Enabled?"],
        rows.map (fun s => [toString s.number, s.name,
          if s.enabled then "True" else "False"])⟩)], .ok ())

/-- The sequential per-device fan-out `for sn in sn_list: getclients(sn, w)`:
returns the calls issued and, on success, all fetched rows concatenated in
device order; a failing fetch aborts the loop with that exception. -/
def collectClients (env : Env) (w : Nat) :
    List String → List Call × Except PyErr (List ClientRow)
  | [] => ([], .ok [])
  | sn :: rest =>
    match env.clients sn w with
    | .error e => ([Call.getClients sn w], .error e)
    | .ok rows =>
      match collectClients env w rest with
      | (calls, .error e) => (Call.getClients sn w :: calls, .error e)
      | (calls, .ok more) => (Call.getClients sn w :: calls, .ok (rows ++ more))

/-- `spark_get_mr_clients_cmd`: list MR serials, fetch each device's clients
with a 900 s window, post a summary line and a detail table.  `mr_count`
counts loop iterations, `client_count` counts all fetched rows. -/
def spark_get_mr_clients_cmd (env : Env) (room : String) :
    List Call × Except PyErr Unit :=
  match env.netDevices with
  | .error e => ([Call.getNetworkDevices], .error e)
  | .ok entries =>
    match get_ap_list entries with
    | .error e => ([Call.getNetworkDevices], .error e)
    | .ok res =>
      match collectClients env 900 (iterSerials res) with
      | (calls, .error e) => (Call.getNetworkDevices :: calls, .error e)
      | (calls, .ok rows) =>
        (Call.getNetworkDevices :: calls ++
          [Call.postSpark room (.text ("There are " ++ toString rows.length ++
            " users on the wireless network across " ++
            toString (iterSerials res).length ++ " MR devices")),
           Call.postSpark room (.table ⟨["Description", "IP", "MAC"],
             rows.map (fun r => [r.description, r.ip, r.mac])⟩)], .ok ())

/-- `spark_get_guest_clients_cmd`: list guest-tagged MR serials, fetch each
device's clients with a 900 s window, keep the rows whose IP passes the
`10.4.17` regex, post the count line and the detail table.  (The source
filters inside the per-device loop; filtering the concatenation yields the
same rows in the same order.) -/
def spark_get_guest_clients_cmd (env : Env) (room : String) :
    List Call × Except PyErr Unit :=
  match env.netDevices with
  | .error e => ([Call.getNetworkDevices], .error e)
  | .ok entries =>
    match get_guest_ap_list entries with
    | .error e => ([Call.getNetworkDevices], .error e)
    | .ok res =>
      match collectClients env 900 (iterSerials res) with
      | (calls, .error e) => (Call.getNetworkDevices :: calls, .error e)
      | (calls, .ok rows) =>
        (Call.getNetworkDevices :: calls ++
          [Call.postSpark room (.text ("There are " ++
            toString (subnetFilter rows).length ++
            " users on the guest wireless network")),
           Call.postSpark room (.table ⟨["Description", "IP", "MAC"],
             (subnetFilter rows).map (fun r => [r.description, r.ip, r.mac])⟩)],
         .ok ())

/-- `spark_get_top_talkers_cmd`: list MR serials, fetch each device's clients
with a 3600 s (1 h) window, aggregate usage per normalized description, and
post one table rendered with `get_string(sortby="Usage - kbytes past hour")`
under `reversesort = True` (descending). -/
def spark_get_top_talkers_cmd (env : Env) (room : String) :
    List Call × Except PyErr Unit :=
  match env.netDevices with
  | .error e => ([Call.getNetworkDevices], .error e)
  | .ok entries =>
    match get_ap_list entries with
    | .error e => ([Call.getNetworkDevices], .error e)
    | .ok res =>
      match collectClients env 3600 (iterSerials res) with
      | (calls, .error e) => (Call.getNetworkDevices :: calls, .error e)
      | (calls, .ok rows) =>
        (Call.getNetworkDevices :: calls ++
          [Call.postSpark room (.table ⟨["Client", "Usage - kbytes past hour"],
            (List.insertionSort usageGe (client_traffic rows)).map
              (fun p => [p.1, toString p.2])⟩)], .ok ())

/-- `spark_err_msg`: post the fixed invalid-command message. -/
def spark_err_msg (room : String) : List Call × Except PyErr Unit :=
  ([Call.postSpark room (.text "Please enter a valid command")], .ok ())

/-- `meraki_rick_roll(number, room_id)`: one POST to the Tropo API, then post
`"Success"` to the room if the status code is exactly 200, otherwise post
`"Something went wrong"`. -/
def meraki_rick_roll (env : Env) (number room : String) :
    List Call × Except PyErr Unit :=
  match env.tropo with
  | .error e => ([Call.tropoPost number], .error e)
  | .ok status =>
    if status = 200 then
      ([Call.tropoPost number, Call.postSpark room (.text "Success")], .ok ())
    else
      ([Call.tropoPost number,
        Call.postSpark room (.text "Something went wrong")], .ok ())

/-! ## Dispatcher and entry point -/

/-- The command selected by the `if/elif` chain of `lambda_handler`. -/
inductive Command
  | help
  | inventory
  | networks
  | ssids
  | mrClients
  | guestClients
  | topTalkers
  | rickRoll (number : String)
  | invalid
deriving DecidableEq, Repr

/-- The `if/elif` chain of `lambda_handler` over the message text: exact
matches first, then the `startswith("Meraki rick roll ")` branch whose
remainder-of-string is the argument (guarded by the always-true
`is not None` test), else the error handler. -/
def dispatch (t : String) : Command :=
  if t = "Meraki get ?" then .help
  else if t = "Meraki get inventory" then .inventory
  else if t = "Meraki get networks" then .networks
  else if t = "Meraki get ssids" then .ssids
  else if t = "Meraki get mr clients" then .mrClients
  else if t = "Meraki get guest clients" then .guestClients
  else if t = "Meraki get top talkers" then .topTalkers
  else if pyStartsWith t "Meraki rick roll " then
    let num := pySplitAfterFirst t "Meraki rick roll "
    if pyStrIsNotNone num then .rickRoll num else .invalid
  else .invalid

/-- Fixed usage text of the help command. -/
def helpText : String :=
  "get [mr clients|guest clients|top talkers|inventory|networks|ssids]"

/-- Run the selected command's handler. -/
def runCommand (env : Env) (room : String) :
    Command → List Call × Except PyErr Unit
  | .help => ([Call.postSpark room (.text helpText)], .ok ())
  | .inventory => spark_get_inventory_cmd env room
  | .networks => spark_get_networks_cmd env room
  | .ssids => spark_get_ssids_cmd env room
  | .mrClients => spark_get_mr_clients_cmd env room
  | .guestClients => spark_get_guest_clients_cmd env room
  | .topTalkers => spark_get_top_talkers_cmd env room
  | .rickRoll num => meraki_rick_roll env num room
  | .invalid => spark_err_msg room

/-- `lambda_handler(event, context)`: read `event['data']['id']` and
`event['data']['roomId']` (a missing key raises `KeyError` before any HTTP
call), GET the message text, dispatch on it, and return `"Finished"`.
There is no `try`/`except` anywhere: any exception escapes the function. -/
def lambda_handler (env : Env) (event : SparkEvent) :
    List Call × Except PyErr String :=
  match event.data with
  | none => ([], .error .keyError)
  | some d =>
    match d.id with
    | none => ([], .error .keyError)
    | some msgId =>
      match d.roomId with
      | none => ([], .error .keyError)
      | some roomId =>
        match env.messageText with
        | .error e => ([Call.getMessage msgId], .error e)
        | .ok text =>
          match runCommand env roomId (dispatch text) with
          | (calls, .error e) => (Call.getMessage msgId :: calls, .error e)
          | (calls, .ok _) => (Call.getMessage msgId :: calls, .ok "Finished")

/-! ## Specification-side helpers (used only to state properties) -/

/-- Merge two optional byte totals, adding when both are present. -/
def mergeOpt : Option Nat → Option Nat → Option Nat
  | none, b => b
  | some x, none => some x
  | some x, some y => some (x + y)

/-- The intended value of the aggregation at key `k`: the sum of sent+recv
bytes over the rows whose normalized description is `k`, `none` when no row
matches. -/
def specTotal : List ClientRow → String → Option Nat
  | [], _ => none
  | r :: rest, k =>
    if normalize r.description = k then mergeOpt (some (traf r)) (specTotal rest k)
    else specTotal rest k

/-- Recognizer for Tropo voice/SMS calls in a trace. -/
def isTropoCall : Call → Bool
  | .tropoPost _ => true
  | _ => false

/-! ## Concrete environments and records for witnesses and counterexamples -/

/-- A benign environment: every remote call succeeds with empty data and the
Tropo API answers 200. -/
def baseEnv : Env where
  messageText := .ok "Meraki get ?"
  inventory := .ok []
  networks := .ok []
  ssids := .ok []
  netDevices := .ok []
  clients := fun _ _ => .ok []
  tropo := .ok 200

/-- Environment whose inbound message is the bare rick-roll prefix. -/
def envRickEmpty : Env := { baseEnv with messageText := .ok "Meraki rick roll " }

/-- Environment where the get-networks fetch raises. -/
def envNetFail : Env :=
  { baseEnv with
    messageText := .ok "Meraki get networks"
    networks := .error .connectionError }

/-- Environment whose Tropo POST answers 201 (a 2xx status other than 200). -/
def envTropo201 : Env := { baseEnv with tropo := .ok 201 }

/-- Three unsorted mocked networks (the spec's end-to-end scenario). -/
def nets3 : List NetworkRow :=
  [⟨"N2", "beta", []⟩, ⟨"N1", "alpha", []⟩, ⟨"N3", "gamma", []⟩]

/-- Environment answering the network list with `nets3`. -/
def envNets3 : Env := { baseEnv with networks := .ok nets3 }

/-- Two client rows served for every device. -/
def clientsTT : List ClientRow :=
  [⟨"Alice", "10.0.0.1", "m1", 5, 7⟩, ⟨"Bob", "10.0.0.2", "m2", 100, 1⟩]

/-- Environment with one MR device whose clients are `clientsTT`. -/
def envTT : Env :=
  { baseEnv with
    netDevices := .ok [DevEntry.dict ⟨"MR52", "S1", "aa:bb", []⟩]
    clients := fun _ _ => .ok clientsTT }

/-- Environment whose decoded device list is the single string `'errors'`. -/
def envErrors : Env := { baseEnv with netDevices := .ok [DevEntry.str "errors"] }

/-- A well-formed inbound event with message id `m1` and room id `r1`. -/
def evOk : SparkEvent := ⟨some ⟨some "m1", some "r1"⟩⟩

/-- A client row whose IP `10x4x17` matches the subnet regex without
containing the literal substring `10.4.17`. -/
def rowWild : ClientRow := ⟨"dev", "10x4x17", "mac", 0, 0⟩

/-- A client row on the actual guest subnet. -/
def rowGuest : ClientRow := ⟨"dev2", "110.4.17.9", "mac2", 0, 0⟩

/-- A device tagged `guest_wireless2`: the tag set does not contain
`guest_wireless`, but its rendering contains it as a substring. -/
def devNearGuest : DeviceRow := ⟨"MR33", "S1", "mm", ["guest_wireless2"]⟩

/-- A device genuinely tagged `guest_wireless`. -/
def devGuest : DeviceRow := ⟨"MR33", "S7", "mm", ["guest_wireless"]⟩

/-- Client rows whose descriptions collide after normalization. -/
def rowColA : ClientRow := ⟨"A b", "ip1", "m1", 3, 4⟩

/-- Second colliding client row (`a.B` also normalizes to `a_b`). -/
def rowColB : ClientRow := ⟨"a.B", "ip2", "m2", 10, 20⟩

/-! ## Lemmas: aggregation algebra -/

theorem mergeOpt_none_right (a : Option Nat) : mergeOpt a none = a := by
  cases a <;> rfl

theorem mergeOpt_comm (a b : Option Nat) : mergeOpt a b = mergeOpt b a := by
  cases a <;> cases b <;> simp [mergeOpt, Nat.add_comm]

theorem mergeOpt_assoc (a b c : Option Nat) :
    mergeOpt (mergeOpt a b) c = mergeOpt a (mergeOpt b c) := by
  cases a <;> cases b <;> cases c <;> simp [mergeOpt, Nat.add_assoc]

theorem lookupKey_trafficAdd (m : List (String × Nat)) (k d : String) (v : Nat) :
    lookupKey k (trafficAdd m d v) =
      if k = d then mergeOpt (lookupKey k m) (some v) else lookupKey k m := by
  induction m with
  | nil =>
    by_cases h : k = d <;> simp [trafficAdd, lookupKey, mergeOpt, h]
  | cons p rest ih =>
    obtain ⟨k', v'⟩ := p
    by_cases hdk : d = k'
    · subst hdk
      by_cases hkd : k = d
      · subst hkd; simp [trafficAdd, lookupKey, mergeOpt]
      · simp [trafficAdd, lookupKey, hkd]
    · by_cases hkk : k = k'
      · subst hkk
        have hkd : ¬ k = d := fun h => hdk h.symm
        simp [trafficAdd, lookupKey, hdk, hkd]
      · simp [trafficAdd, lookupKey, hdk, hkk, ih]

theorem lookupKey_foldl (k : String) :
    ∀ (l : List ClientRow) (m : List (String × Nat)),
      lookupKey k (l.foldl addClientRow m) =
        mergeOpt (lookupKey k m) (specTotal l k) := by
  intro l
  induction l with
  | nil => intro m; simp [specTotal, mergeOpt_none_right]
  | cons r rest ih =>
    intro m
    simp only [List.foldl_cons, specTotal, addClientRow]
    rw [ih, lookupKey_trafficAdd]
    by_cases h : normalize r.description = k
    · rw [if_pos h.symm, if_pos h, mergeOpt_assoc]
    · rw [if_neg (fun hh => h hh.symm), if_neg h]

theorem lookupKey_client_traffic (k : String) (l : List ClientRow) :
    lookupKey k (client_traffic l) = specTotal l k := by
  have h := lookupKey_foldl k l []
  simpa only [client_traffic,
    show lookupKey k ([] : List (String × Nat)) = none from rfl,
    show ∀ x, mergeOpt none x = x from fun _ => rfl] using h

theorem specTotal_append (a b : List ClientRow) (k : String) :
    specTotal (a ++ b) k = mergeOpt (specTotal a k) (specTotal b k) := by
  induction a with
  | nil => simp [specTotal, mergeOpt]
  | cons r rest ih =>
    simp only [List.cons_append, specTotal]
    by_cases h : normalize r.description = k
    · simp [h, ih, mergeOpt_assoc]
    · simp [h, ih]

/-! ## Lemmas: literal substring search -/

theorem isPrefixOf_append_self (p s : List Char) : p.isPrefixOf (p ++ s) = true := by
  induction p with
  | nil => simp [List.isPrefixOf]
  | cons c cs ih => simp [List.isPrefixOf, ih]

theorem litSearchAux_of_isPrefixOf (pat l : List Char) (h : pat.isPrefixOf l = true) :
    litSearchAux pat l = true := by
  cases l with
  | nil => simpa [litSearchAux] using h
  | cons c cs => simp [litSearchAux, h]

theorem litSearchAux_append_left (pat pre l : List Char)
    (h : litSearchAux pat l = true) : litSearchAux pat (pre ++ l) = true := by
  induction pre with
  | nil => simpa using h
  | cons c cs ih => simp [litSearchAux, ih]

theorem litSearchAux_inner (x : String) (tags : List String) (suf : List Char)
    (h : x ∈ tags) : litSearchAux x.data (pyStrInner tags ++ suf) = true := by
  induction tags with
  | nil => cases h
  | cons t rest ih =>
    rcases List.mem_cons.mp h with rfl | hm
    · cases rest with
      | nil =>
        have h1 : litSearchAux x.data (x.data ++ ([squoteChar] ++ suf)) = true :=
          litSearchAux_of_isPrefixOf _ _ (isPrefixOf_append_self _ _)
        have h2 := litSearchAux_append_left x.data [squoteChar] _ h1
        simpa [pyStrInner, quotedChars, List.append_assoc] using h2
      | cons t2 r2 =>
        have h1 : litSearchAux x.data
            (x.data ++ ([squoteChar] ++ (',' :: ' ' :: (pyStrInner (t2 :: r2) ++ suf)))) = true :=
          litSearchAux_of_isPrefixOf _ _ (isPrefixOf_append_self _ _)
        have h2 := litSearchAux_append_left x.data [squoteChar] _ h1
        simpa [pyStrInner, quotedChars, List.append_assoc] using h2
    · cases rest with
      | nil => cases hm
      | cons t2 r2 =>
        have h2 := litSearchAux_append_left x.data (quotedChars t ++ [',', ' ']) _ (ih hm)
        simpa [pyStrInner, List.append_assoc] using h2

theorem mem_litSearch_pyStrList (x : String) (tags : List String) (h : x ∈ tags) :
    litSearch x (pyStrList tags) = true := by
  have h1 := litSearchAux_inner x tags [']'] h
  have h2 := litSearchAux_append_left x.data ['['] _ h1
  simpa [litSearch, pyStrList] using h2

/-! ## Lemmas: the dot-wildcard regex search -/

theorem reMatchAt_of_isPrefixOf :
    ∀ (pat l : List Char), pat.isPrefixOf l = true → reMatchAt pat l = true
  | [], _, _ => rfl
  | _ :: _, [], h => by simp [List.isPrefixOf] at h
  | p :: ps, c :: cs, h => by
    simp only [List.isPrefixOf, Bool.and_eq_true, beq_iff_eq] at h
    simp [reMatchAt, h.1, reMatchAt_of_isPrefixOf ps cs h.2]

theorem reSearchAux_of_litSearchAux :
    ∀ (pat l : List Char), litSearchAux pat l = true → reSearchAux pat l = true
  | pat, [], h => by
    simpa [reSearchAux] using reMatchAt_of_isPrefixOf pat [] (by simpa [litSearchAux] using h)
  | pat, c :: cs, h => by
    simp only [litSearchAux, Bool.or_eq_true] at h
    rcases h with h | h
    · simp [reSearchAux, reMatchAt_of_isPrefixOf _ _ h]
    · simp [reSearchAux, reSearchAux_of_litSearchAux pat cs h]

theorem reMatchAt_pat107_iff (l : List Char) :
    reMatchAt pat107 l = true ↔
      ∃ x y rest, l = '1' :: '0' :: x :: '4' :: y :: '1' :: '7' :: rest := by
  constructor
  · intro h
    rcases l with _ | ⟨a, l⟩; · simp [pat107, reMatchAt] at h
    rcases l with _ | ⟨b, l⟩; · simp [pat107, reMatchAt] at h
    rcases l with _ | ⟨c, l⟩; · simp [pat107, reMatchAt] at h
    rcases l with _ | ⟨d, l⟩; · simp [pat107, reMatchAt] at h
    rcases l with _ | ⟨e, l⟩; · simp [pat107, reMatchAt] at h
    rcases l with _ | ⟨f, l⟩; · simp [pat107, reMatchAt] at h
    rcases l with _ | ⟨g, l⟩; · simp [pat107, reMatchAt] at h
    simp only [pat107, reMatchAt, Bool.and_eq_true, Bool.or_eq_true, beq_iff_eq] at h
    obtain ⟨h1, h2, h3, h4, h5, h6, h7, -⟩ := h
    have e1 : a = '1' := by
      rcases h1 with h | h
      · exact absurd h (by decide)
      · exact h.symm
    have e2 : b = '0' := by
      rcases h2 with h | h
      · exact absurd h (by decide)
      · exact h.symm
    have e4 : d = '4' := by
      rcases h4 with h | h
      · exact absurd h (by decide)
      · exact h.symm
    have e6 : f = '1' := by
      rcases h6 with h | h
      · exact absurd h (by decide)
      · exact h.symm
    have e7 : g = '7' := by
      rcases h7 with h | h
      · exact absurd h (by decide)
      · exact h.symm
    subst e1; subst e2; subst e4; subst e6; subst e7
    exact ⟨c, e, l, rfl⟩
  · rintro ⟨x, y, rest, rfl⟩
    simp [pat107, reMatchAt]

theorem reSearchAux_pat107_iff (l : List Char) :
    reSearchAux pat107 l = true ↔
      ∃ pre x y suf, l = pre ++ '1' :: '0' :: x :: '4' :: y :: '1' :: '7' :: suf := by
  induction l with
  | nil =>
    constructor
    · intro h; simp [reSearchAux, reMatchAt, pat107] at h
    · rintro ⟨pre, x, y, suf, hl⟩
      exact absurd hl.symm (by simp)
  | cons c cs ih =>
    simp only [reSearchAux, Bool.or_eq_true]
    constructor
    · rintro (h | h)
      · obtain ⟨x, y, rest, hl⟩ := (reMatchAt_pat107_iff _).1 h
        exact ⟨[], x, y, rest, by simpa using hl⟩
      · obtain ⟨pre, x, y, suf, hl⟩ := ih.1 h
        exact ⟨c :: pre, x, y, suf, by simp [hl]⟩
    · rintro ⟨pre, x, y, suf, hl⟩
      rcases pre with _ | ⟨p, pre⟩
      · left
        exact (reMatchAt_pat107_iff _).2 ⟨x, y, suf, by simpa using hl⟩
      · right
        apply ih.2
        refine ⟨pre, x, y, suf, ?_⟩
        have := congrArg List.tail hl
        simpa using this

/-! ## Lemmas: AP-list filters -/

theorem get_ap_list_dicts (rows : List DeviceRow) :
    get_ap_list (rows.map DevEntry.dict) =
      .ok (.serials ((rows.filter mrKeep).map (fun d => d.serial))) := by
  induction rows with
  | nil => rfl
  | cons d rest ih =>
    simp only [List.map_cons, get_ap_list, ih, List.filter_cons]
    by_cases h : mrKeep d <;> simp [h]

theorem get_guest_ap_list_dicts (rows : List DeviceRow) :
    get_guest_ap_list (rows.map DevEntry.dict) =
      .ok (.serials ((rows.filter guestKeep).map (fun d => d.serial))) := by
  induction rows with
  | nil => rfl
  | cons d rest ih =>
    simp only [List.map_cons, get_guest_ap_list, ih, List.filter_cons]
    by_cases h : guestKeep d <;> simp [h]

theorem get_ap_list_errors (pre : List DeviceRow) (post : List DevEntry) :
    get_ap_list (pre.map DevEntry.dict ++ DevEntry.str "errors" :: post) = .ok .errors := by
  induction pre with
  | nil => simp [get_ap_list]
  | cons d rest ih => simp [get_ap_list, ih]

theorem get_guest_ap_list_errors (pre : List DeviceRow) (post : List DevEntry) :
    get_guest_ap_list (pre.map DevEntry.dict ++ DevEntry.str "errors" :: post) =
      .ok .errors := by
  induction pre with
  | nil => simp [get_guest_ap_list]
  | cons d rest ih => simp [get_guest_ap_list, ih]

/-! ## Lemmas: the per-device fetch loop -/

theorem collectClients_window (env : Env) (w : Nat) :
    ∀ (sns : List String) (c : Call), c ∈ (collectClients env w sns).1 →
      ∃ sn, c = Call.getClients sn w := by
  intro sns
  induction sns with
  | nil => intro c hc; simp [collectClients] at hc
  | cons sn rest ih =>
    intro c hc
    simp only [collectClients] at hc
    cases hcl : env.clients sn w with
    | error e =>
      rw [hcl] at hc
      simp at hc
      exact ⟨sn, hc⟩
    | ok rows =>
      rw [hcl] at hc
      cases hrec : collectClients env w rest with
      | mk calls res =>
        rw [hrec] at hc
        cases res with
        | error e =>
          simp at hc
          rcases hc with rfl | hm
          · exact ⟨sn, rfl⟩
          · exact ih c (by rw [hrec]; exact hm)
        | ok more =>
          simp at hc
          rcases hc with rfl | hm
          · exact ⟨sn, rfl⟩
          · exact ih c (by rw [hrec]; exact hm)

theorem collectClients_no_post (env : Env) (w : Nat) (sns : List String)
    (roomId : String) (p : Payload) :
    Call.postSpark roomId p ∉ (collectClients env w sns).1 := by
  intro hmem
  obtain ⟨sn, hsn⟩ := collectClients_window env w sns _ hmem
  exact Call.noConfusion hsn

theorem runCommand_error_no_post (env : Env) (room : String) (c : Command) (e : PyErr)
    (h : (runCommand env room c).2 = .error e) (roomId : String) (p : Payload) :
    Call.postSpark roomId p ∉ (runCommand env room c).1 := by
  cases c with
  | help => simp [runCommand, helpText] at h
  | inventory =>
    cases hi : env.inventory with
    | error e2 => simp [runCommand, spark_get_inventory_cmd, hi]
    | ok rows => simp [runCommand, spark_get_inventory_cmd, hi] at h
  | networks =>
    cases hn : env.networks with
    | error e2 => simp [runCommand, spark_get_networks_cmd, hn]
    | ok rows => simp [runCommand, spark_get_networks_cmd, hn] at h
  | ssids =>
    cases hs : env.ssids with
    | error e2 => simp [runCommand, spark_get_ssids_cmd, hs]
    | ok rows => simp [runCommand, spark_get_ssids_cmd, hs] at h
  | mrClients =>
    cases hd : env.netDevices with
    | error e2 => simp [runCommand, spark_get_mr_clients_cmd, hd]
    | ok entries =>
      cases hap : get_ap_list entries with
      | error e2 => simp [runCommand, spark_get_mr_clients_cmd, hd, hap]
      | ok res =>
        cases hcc : collectClients env 900 (iterSerials res) with
        | mk calls cres =>
          cases cres with
          | error e2 =>
            have hnp := collectClients_no_post env 900 (iterSerials res) roomId p
            rw [hcc] at hnp
            simp [runCommand, spark_get_mr_clients_cmd, hd, hap, hcc]
            exact hnp
          | ok rows =>
            simp [runCommand, spark_get_mr_clients_cmd, hd, hap, hcc] at h
  | guestClients =>
    cases hd : env.netDevices with
    | error e2 => simp [runCommand, spark_get_guest_clients_cmd, hd]
    | ok entries =>
      cases hap : get_guest_ap_list entries with
      | error e2 => simp [runCommand, spark_get_guest_clients_cmd, hd, hap]
      | ok res =>
        cases hcc : collectClients env 900 (iterSerials res) with
        | mk calls cres =>
          cases cres with
          | error e2 =>
            have hnp := collectClients_no_post env 900 (iterSerials res) roomId p
            rw [hcc] at hnp
            simp [runCommand, spark_get_guest_clients_cmd, hd, hap, hcc]
            exact hnp
          | ok rows =>
            simp [runCommand, spark_get_guest_clients_cmd, hd, hap, hcc] at h
  | topTalkers =>
    cases hd : env.netDevices with
    | error e2 => simp [runCommand, spark_get_top_talkers_cmd, hd]
    | ok entries =>
      cases hap : get_ap_list entries with
      | error e2 => simp [runCommand, spark_get_top_talkers_cmd, hd, hap]
      | ok res =>
        cases hcc : collectClients env 3600 (iterSerials res) with
        | mk calls cres =>
          cases cres with
          | error e2 =>
            have hnp := collectClients_no_post env 3600 (iterSerials res) roomId p
            rw [hcc] at hnp
            simp [runCommand, spark_get_top_talkers_cmd, hd, hap, hcc]
            exact hnp
          | ok rows =>
            simp [runCommand, spark_get_top_talkers_cmd, hd, hap, hcc] at h
  | rickRoll num =>
    cases ht : env.tropo with
    | error e2 => simp [runCommand, meraki_rick_roll, ht]
    | ok s =>
      by_cases hs : s = 200 <;> simp [runCommand, meraki_rick_roll, ht, hs] at h
  | invalid => simp [runCommand, spark_err_msg] at h

/-! ## Lemmas: Python string order is total and transitive -/

theorem listLe_total : ∀ (a b : List Char), listLe a b = true ∨ listLe b a = true := by
  intro a
  induction a with
  | nil => intro b; left; rfl
  | cons c cs ih =>
    intro b
    cases b with
    | nil => right; rfl
    | cons d ds =>
      rcases Nat.lt_trichotomy c.toNat d.toNat with h | h | h
      · left; simp [listLe, h]
      · rcases ih ds with h2 | h2
        · left; simp [listLe, h, h2]
        · right; simp [listLe, h.symm, h2]
      · right; simp [listLe, h]

theorem listLe_trans :
    ∀ (a b c : List Char), listLe a b = true → listLe b c = true → listLe a c = true := by
  intro a
  induction a with
  | nil => intro b c _ _; rfl
  | cons x xs ih =>
    intro b c hab hbc
    cases b with
    | nil => simp [listLe] at hab
    | cons y ys =>
      cases c with
      | nil => simp [listLe] at hbc
      | cons z zs =>
        simp only [listLe] at hab hbc ⊢
        by_cases h1 : x.toNat < y.toNat
        · by_cases h3 : y.toNat < z.toNat
          · simp [show x.toNat < z.toNat from h1.trans h3]
          · simp only [if_neg h3] at hbc
            by_cases h4 : y.toNat = z.toNat
            · simp [show x.toNat < z.toNat from h4 ▸ h1]
            · simp [h4] at hbc
        · simp only [if_neg h1] at hab
          by_cases h2 : x.toNat = y.toNat
          · simp only [if_pos h2] at hab
            by_cases h3 : y.toNat < z.toNat
            · simp [show x.toNat < z.toNat from h2 ▸ h3]
            · simp only [if_neg h3] at hbc
              by_cases h4 : y.toNat = z.toNat
              · simp only [if_pos h4] at hbc
                have hxz : ¬ x.toNat < z.toNat := by omega
                simp only [if_neg hxz, if_pos (h2.trans h4)]
                exact ih ys zs hab hbc
              · simp [h4] at hbc
          · simp [h2] at hab

theorem nameLe_isTotal : IsTotal NetworkRow nameLe :=
  ⟨fun a b => listLe_total a.name.data b.name.data⟩

theorem nameLe_isTrans : IsTrans NetworkRow nameLe :=
  ⟨fun a b c => listLe_trans a.name.data b.name.data c.name.data⟩

theorem usageGe_isTotal : IsTotal (String × Nat) usageGe :=
  ⟨fun a b => Nat.le_total b.2 a.2⟩

theorem usageGe_isTrans : IsTrans (String × Nat) usageGe :=
  ⟨fun _ _ _ hab hbc => le_trans hbc hab⟩

theorem data_pat107 : "10.4.17".data = pat107 := rfl

/-! ## Claim C1: the subnet filter -/

/-- C1 counterexample: the record with IP `10x4x17` does not contain the
literal substring `10.4.17`, yet the get-guest-clients subnet filter keeps
it, because the unescaped dots of `re.compile('10.4.17')` match any
character.  This refutes the claim that exactly the literal-containment
records are retained. -/
theorem subnet_filter_not_literal_containment :
    subnetFilter [rowWild] = [rowWild] ∧ litSearch "10.4.17" rowWild.ip = false :=
  ⟨rfl, rfl⟩

/-- C1 (amended): the subnet filter used by the get-guest-clients handler
retains exactly the records whose IP matches the pattern `10.4.17` in which
each unescaped dot matches ANY single character — i.e. whose IP contains
`1`, `0`, any char, `4`, any char, `1`, `7` consecutively.  Literal
containment of `10.4.17` implies retention, but is not necessary. -/
theorem subnet_filter_regex_semantics (rows : List ClientRow) (r : ClientRow) :
    (r ∈ subnetFilter rows ↔ r ∈ rows ∧
      ∃ pre x y suf,
        r.ip.data = pre ++ '1' :: '0' :: x :: '4' :: y :: '1' :: '7' :: suf) ∧
    (litSearch "10.4.17" r.ip = true → subnetMatch r = true) := by
  constructor
  · rw [subnetFilter, List.mem_filter]
    constructor
    · rintro ⟨hm, hp⟩
      refine ⟨hm, (reSearchAux_pat107_iff r.ip.data).1 ?_⟩
      simpa [subnetMatch, reSearch, data_pat107] using hp
    · rintro ⟨hm, hx⟩
      refine ⟨hm, ?_⟩
      simpa [subnetMatch, reSearch, data_pat107] using (reSearchAux_pat107_iff r.ip.data).2 hx
  · intro h
    have := reSearchAux_of_litSearchAux "10.4.17".data r.ip.data (by simpa [litSearch] using h)
    simpa [subnetMatch, reSearch] using this

/-- C1 witness: an IP on the guest subnet (`110.4.17.9`, the spec's own
documented-imprecision example) contains the literal pattern and is kept. -/
theorem subnet_filter_regex_semantics_witness :
    litSearch "10.4.17" rowGuest.ip = true ∧ subnetMatch rowGuest = true :=
  ⟨rfl, (subnet_filter_regex_semantics [] rowGuest).2 rfl⟩

/-! ## Claim C2: the rick-roll dispatch on an empty remainder -/

/-- C2: evaluating the dispatcher at the failing input.  For the text
`"Meraki rick roll "` the remainder after the prefix is the empty string;
Python's `'' is not None` is true, so the dispatcher invokes the rick-roll
handler with argument `""` — it does NOT route to the error handler as the
spec requires (the `else: spark_err_msg(...)` branch is dead code).  The
second conjunct confirms the non-empty-argument half of the claim, and the
third runs the whole entry point on the failing input: the Tropo API is
called with the empty number. -/
theorem rick_roll_dispatch_behavior :
    dispatch "Meraki rick roll " = Command.rickRoll "" ∧
    dispatch "Meraki rick roll 5551234567" = Command.rickRoll "5551234567" ∧
    lambda_handler envRickEmpty evOk =
      ([Call.getMessage "m1", Call.tropoPost "",
        Call.postSpark "r1" (Payload.text "Success")], .ok "Finished") :=
  ⟨rfl, rfl, rfl⟩

/-! ## Claim C3: handler failures are not caught -/

/-- C3 counterexample: with a well-formed event (room id `r1` extracted) and
a failing get-networks fetch, the entry point returns the fetch error as a
hard failure and posts nothing — the failure is not converted into a room
notification. -/
theorem handler_failure_escapes_entry_point :
    lambda_handler envNetFail evOk =
      ([Call.getMessage "m1", Call.getNetworks], .error .connectionError) ∧
    (lambda_handler envNetFail evOk).2 ≠ .ok "Finished" :=
  ⟨rfl, fun hc => Except.noConfusion
    ((show (lambda_handler envNetFail evOk).2 =
        Except.error PyErr.connectionError from rfl) ▸ hc)⟩

/-- C3 (amended): there is no `try`/`except` in `lambda_handler`: for every
environment, every event from which message and room ids were extracted,
and every message text whose dispatched command handler fails — whatever the
handler and whatever the exception — the failure propagates out of the entry
point as that hard failure, and no message is posted to any room during the
invocation (the trace contains no Spark POST at all). -/
theorem handler_failure_propagates (env : Env) (m r text : String) (e : PyErr)
    (hmsg : env.messageText = .ok text)
    (hrun : (runCommand env r (dispatch text)).2 = .error e) :
    (lambda_handler env ⟨some ⟨some m, some r⟩⟩).2 = .error e ∧
    ∀ (roomId : String) (p : Payload),
      Call.postSpark roomId p ∉ (lambda_handler env ⟨some ⟨some m, some r⟩⟩).1 := by
  cases hrc : runCommand env r (dispatch text) with
  | mk calls res =>
    cases res with
    | ok u => rw [hrc] at hrun; simp at hrun
    | error e2 =>
      rw [hrc] at hrun
      simp at hrun
      subst hrun
      have hlh : lambda_handler env ⟨some ⟨some m, some r⟩⟩ =
          (Call.getMessage m :: calls, .error e2) := by
        simp [lambda_handler, hmsg, hrc]
      constructor
      · rw [hlh]
      · intro roomId p
        rw [hlh]
        have hnp := runCommand_error_no_post env r (dispatch text) e2
          (by rw [hrc]) roomId p
        rw [hrc] at hnp
        simpa using hnp

/-- C3 witness: the general theorem at a concrete failing networks fetch. -/
theorem handler_failure_propagates_witness :
    envNetFail.messageText = .ok "Meraki get networks" ∧
    (runCommand envNetFail "r9" (dispatch "Meraki get networks")).2 =
      .error .connectionError ∧
    (lambda_handler envNetFail ⟨some ⟨some "m9", some "r9"⟩⟩).2 =
      .error .connectionError :=
  ⟨rfl, rfl,
    (handler_failure_propagates envNetFail "m9" "r9" "Meraki get networks"
      .connectionError rfl rfl).1⟩

/-! ## Claim C4: rick-roll success is status == 200, not 2xx -/

/-- C4 counterexample: status 201 is a 2xx code, yet the handler posts
`"Something went wrong"`, because the source tests `status_code == 200`
exactly.  This refutes "posts Success iff the status is 2xx". -/
theorem rick_roll_2xx_not_success :
    (200 ≤ 201 ∧ 201 ≤ 299) ∧
    meraki_rick_roll envTropo201 "5551234567" "r1" =
      ([Call.tropoPost "5551234567",
        Call.postSpark "r1" (Payload.text "Something went wrong")], .ok ()) :=
  ⟨⟨by decide, by decide⟩, rfl⟩

/-- C4 (amended): for every status code returned by the voice/SMS API, the
rick-roll handler posts `"Success"` to the room iff the status is exactly
200, and posts `"Something went wrong"` otherwise; in every environment the
trace contains exactly one Tropo call (no retry). -/
theorem rick_roll_status_200_exact (env : Env) (number room : String) (status : Nat)
    (h : env.tropo = .ok status) :
    meraki_rick_roll env number room =
      ([Call.tropoPost number,
        Call.postSpark room
          (.text (if status = 200 then "Success" else "Something went wrong"))],
       .ok ()) ∧
    (Call.postSpark room (Payload.text "Success") ∈ (meraki_rick_roll env number room).1 ↔
      status = 200) ∧
    (∀ env2 : Env, ((meraki_rick_roll env2 number room).1.countP isTropoCall) = 1) := by
  refine ⟨?_, ?_, ?_⟩
  · by_cases hs : status = 200 <;> simp [meraki_rick_roll, h, hs]
  · by_cases hs : status = 200 <;> simp [meraki_rick_roll, h, hs]
  · intro env2
    cases h2 : env2.tropo with
    | error e => simp [meraki_rick_roll, h2, List.countP_cons, isTropoCall]
    | ok s =>
      by_cases hs : s = 200 <;>
        simp [meraki_rick_roll, h2, hs, List.countP_cons, isTropoCall]

/-- C4 witness: the amended theorem at status 200. -/
theorem rick_roll_status_200_exact_witness :
    baseEnv.tropo = .ok 200 ∧
    meraki_rick_roll baseEnv "5551234567" "r1" =
      ([Call.tropoPost "5551234567",
        Call.postSpark "r1"
          (.text (if 200 = 200 then "Success" else "Something went wrong"))],
       .ok ()) :=
  ⟨rfl, (rick_roll_status_200_exact baseEnv "5551234567" "r1" 200 rfl).1⟩

/-! ## Claim C5: the guest tag check is a substring search, not membership -/

/-- C5 counterexample: a device tagged only `guest_wireless2` — whose tag set
does not contain `guest_wireless` as a member — is nevertheless returned by
`get_guest_ap_list`, because the source searches for `guest_wireless` as a
substring of `str(row['tags'])`. -/
theorem guest_filter_substring_not_membership :
    get_guest_ap_list [DevEntry.dict devNearGuest] = .ok (.serials ["S1"]) ∧
    "guest_wireless" ∉ devNearGuest.tags :=
  ⟨rfl, by decide⟩

/-- C5 (amended): on device-dict inputs, `get_guest_ap_list` returns exactly
the serials of the records whose model's first two characters are `MR` AND
whose rendered tag list contains `guest_wireless` as a substring (and
`get_ap_list` those with the `MR` prefix alone); genuine tag membership
implies the substring condition, but not conversely. -/
theorem guest_filter_characterization (rows : List DeviceRow) (d : DeviceRow) :
    get_guest_ap_list (rows.map DevEntry.dict) =
      .ok (.serials ((rows.filter guestKeep).map (fun x => x.serial))) ∧
    get_ap_list (rows.map DevEntry.dict) =
      .ok (.serials ((rows.filter mrKeep).map (fun x => x.serial))) ∧
    ("guest_wireless" ∈ d.tags → litSearch "guest_wireless" (pyStrList d.tags) = true) ∧
    (guestKeep d = true ↔
      (mrKeep d = true ∧ litSearch "guest_wireless" (pyStrList d.tags) = true)) := by
  refine ⟨get_guest_ap_list_dicts rows, get_ap_list_dicts rows, ?_, ?_⟩
  · exact mem_litSearch_pyStrList _ _
  · simp [guestKeep]

/-- C5 witness: a device genuinely tagged `guest_wireless` satisfies the
substring condition via the membership implication. -/
theorem guest_filter_characterization_witness :
    "guest_wireless" ∈ devGuest.tags ∧
    litSearch "guest_wireless" (pyStrList devGuest.tags) = true :=
  ⟨by decide, (guest_filter_characterization [] devGuest).2.2.1 (by decide)⟩

/-! ## Claim C6: usage aggregation algebra -/

/-- C6: usage aggregation is order-independent and additive: the dict built
from `l₁ ++ l₂` and from `l₂ ++ l₁` define the same mapping from normalized
name to cumulative total; duplicating every record doubles every total; and
two records whose descriptions normalize to the same key merge their
sent+received totals. -/
theorem usage_aggregation_algebra (l₁ l₂ l : List ClientRow) (k : String)
    (r₁ r₂ : ClientRow) :
    lookupKey k (client_traffic (l₁ ++ l₂)) = lookupKey k (client_traffic (l₂ ++ l₁)) ∧
    lookupKey k (client_traffic (l ++ l)) =
      Option.map (fun n => 2 * n) (lookupKey k (client_traffic l)) ∧
    (normalize r₁.description = normalize r₂.description →
      lookupKey (normalize r₁.description) (client_traffic [r₁, r₂]) =
        some (traf r₁ + traf r₂)) := by
  refine ⟨?_, ?_, ?_⟩
  · rw [lookupKey_client_traffic, lookupKey_client_traffic, specTotal_append,
      specTotal_append, mergeOpt_comm]
  · rw [lookupKey_client_traffic, lookupKey_client_traffic, specTotal_append]
    cases specTotal l k with
    | none => rfl
    | some x => simp [mergeOpt, Nat.two_mul]
  · intro h
    rw [lookupKey_client_traffic]
    simp [specTotal, h, mergeOpt]

/-- C6 witness: `"A b"` and `"a.B"` both normalize to `a_b` and their
totals merge. -/
theorem usage_aggregation_algebra_witness :
    normalize rowColA.description = normalize rowColB.description ∧
    lookupKey (normalize rowColA.description) (client_traffic [rowColA, rowColB]) =
      some (traf rowColA + traf rowColB) :=
  ⟨rfl, (usage_aggregation_algebra [] [] [] "" rowColA rowColB).2.2 rfl⟩

/-! ## Claim C7: a missing `data.id` aborts before any network call -/

/-- C7: for every environment and every inbound event lacking the nested
`data.id` field, the entry point fails with the `KeyError` that the spec
names `MalformedEventError`, and its call trace is empty: no network call
is performed before the failure. -/
theorem missing_data_id_aborts (env : Env) (ev : SparkEvent)
    (h : ev.data = none ∨ ∃ d, ev.data = some d ∧ d.id = none) :
    lambda_handler env ev = ([], .error .keyError) := by
  rcases h with h | ⟨d, hd, hid⟩
  · simp [lambda_handler, h]
  · simp [lambda_handler, hd, hid]

/-- C7 witness: the event with no `data` object at all. -/
theorem missing_data_id_aborts_witness :
    (SparkEvent.mk none).data = none ∧
    lambda_handler baseEnv ⟨none⟩ = ([], .error .keyError) :=
  ⟨rfl, missing_data_id_aborts baseEnv ⟨none⟩ (Or.inl rfl)⟩

/-! ## Claim C8: get-networks posts one table sorted ascending by name -/

/-- C8: whenever the network fetch succeeds, the get-networks handler posts
exactly one message — a table with columns Network ID / Network Name / Tags
whose rows are the fetched networks stably sorted ascending by the name
column (the posted rows are sorted and are a permutation of the input). -/
theorem get_networks_posts_one_sorted_table (env : Env) (room : String)
    (rows : List NetworkRow) (h : env.networks = .ok rows) :
    spark_get_networks_cmd env room =
      ([Call.getNetworks,
        Call.postSpark room (.table ⟨["Network ID", "Network Name", "Tags"],
          (List.insertionSort nameLe rows).map
            (fun r => [r.id, r.name, pyStrList r.tags])⟩)],
       .ok ()) ∧
    List.Sorted nameLe (List.insertionSort nameLe rows) ∧
    List.Perm (List.insertionSort nameLe rows) rows := by
  refine ⟨by simp [spark_get_networks_cmd, h], ?_,
    List.perm_insertionSort nameLe rows⟩
  haveI := nameLe_isTotal
  haveI := nameLe_isTrans
  exact List.sorted_insertionSort nameLe rows

/-- C8 witness: the spec's end-to-end scenario — three mocked networks come
back sorted `alpha`, `beta`, `gamma` in the single posted table. -/
theorem get_networks_posts_one_sorted_table_witness :
    envNets3.networks = .ok nets3 ∧
    spark_get_networks_cmd envNets3 "r1" =
      ([Call.getNetworks,
        Call.postSpark "r1" (.table ⟨["Network ID", "Network Name", "Tags"],
          (List.insertionSort nameLe nets3).map
            (fun r => [r.id, r.name, pyStrList r.tags])⟩)],
       .ok ()) ∧
    (List.insertionSort nameLe nets3).map (fun r => r.name) =
      ["alpha", "beta", "gamma"] :=
  ⟨rfl, (get_networks_posts_one_sorted_table envNets3 "r1" nets3 rfl).1, rfl⟩

/-! ## Claim C9: top-talkers uses a 1-hour window and posts one sorted table -/

/-- C9: whenever the device list and all per-device client fetches succeed,
the top-talkers handler issues every client fetch with a 3600-second window
and posts exactly one message — a table with columns Client / Usage whose
rows are the normalized-name aggregation entries sorted descending by the
usage value (sorted, and a permutation of the aggregation entries). -/
theorem top_talkers_hour_window_sorted (env : Env) (room : String)
    (entries : List DevEntry) (res : ApListResult) (calls : List Call)
    (rows : List ClientRow)
    (hdev : env.netDevices = .ok entries)
    (hap : get_ap_list entries = .ok res)
    (hcc : collectClients env 3600 (iterSerials res) = (calls, .ok rows)) :
    spark_get_top_talkers_cmd env room =
      (Call.getNetworkDevices :: calls ++
        [Call.postSpark room (.table ⟨["Client", "Usage - kbytes past hour"],
          (List.insertionSort usageGe (client_traffic rows)).map
            (fun p => [p.1, toString p.2])⟩)],
       .ok ()) ∧
    (∀ c ∈ calls, ∃ sn, c = Call.getClients sn 3600) ∧
    List.Sorted usageGe (List.insertionSort usageGe (client_traffic rows)) ∧
    List.Perm (List.insertionSort usageGe (client_traffic rows))
      (client_traffic rows) := by
  refine ⟨by simp [spark_get_top_talkers_cmd, hdev, hap, hcc], ?_, ?_,
    List.perm_insertionSort usageGe (client_traffic rows)⟩
  · intro c hc
    exact collectClients_window env 3600 (iterSerials res) c (by rw [hcc]; exact hc)
  · haveI := usageGe_isTotal
    haveI := usageGe_isTrans
    exact List.sorted_insertionSort usageGe (client_traffic rows)

/-- C9 witness: one MR device with two clients; the fetch is issued with the
3600-second window and the handler posts the sorted aggregation table. -/
theorem top_talkers_hour_window_sorted_witness :
    envTT.netDevices = .ok [DevEntry.dict ⟨"MR52", "S1", "aa:bb", []⟩] ∧
    get_ap_list [DevEntry.dict ⟨"MR52", "S1", "aa:bb", []⟩] = .ok (.serials ["S1"]) ∧
    collectClients envTT 3600 (iterSerials (.serials ["S1"])) =
      ([Call.getClients "S1" 3600], .ok clientsTT) ∧
    spark_get_top_talkers_cmd envTT "r1" =
      (Call.getNetworkDevices :: [Call.getClients "S1" 3600] ++
        [Call.postSpark "r1" (.table ⟨["Client", "Usage - kbytes past hour"],
          (List.insertionSort usageGe (client_traffic clientsTT)).map
            (fun p => [p.1, toString p.2])⟩)],
       .ok ()) :=
  ⟨rfl, rfl, rfl,
    (top_talkers_hour_window_sorted envTT "r1" [DevEntry.dict ⟨"MR52", "S1", "aa:bb", []⟩]
      (.serials ["S1"]) [Call.getClients "S1" 3600] clientsTT rfl rfl rfl).1⟩

/-! ## Claim C10: the `'errors'` sentinel leaks into per-character fetches -/

/-- C10: when the decoded device list contains the bare string `'errors'`
(preceded only by device dicts), both AP-list functions return the string
`'errors'` itself; the calling handlers do not check for that sentinel and
iterate over the string, issuing one `getclients` fetch per character
`e`, `r`, `r`, `o`, `r`, `s` (six fetches, and the MR summary even reports
"across 6 MR devices"). -/
theorem errors_sentinel_char_fanout (pre : List DeviceRow) (post : List DevEntry)
    (env : Env) (room : String)
    (hdev : env.netDevices = .ok (pre.map DevEntry.dict ++ DevEntry.str "errors" :: post))
    (hcl : env.clients = fun _ _ => .ok []) :
    get_ap_list (pre.map DevEntry.dict ++ DevEntry.str "errors" :: post) = .ok .errors ∧
    get_guest_ap_list (pre.map DevEntry.dict ++ DevEntry.str "errors" :: post) =
      .ok .errors ∧
    iterSerials .errors = ["e", "r", "r", "o", "r", "s"] ∧
    spark_get_mr_clients_cmd env room =
      ([Call.getNetworkDevices, Call.getClients "e" 900, Call.getClients "r" 900,
        Call.getClients "r" 900, Call.getClients "o" 900, Call.getClients "r" 900,
        Call.getClients "s" 900,
        Call.postSpark room
          (.text "There are 0 users on the wireless network across 6 MR devices"),
        Call.postSpark room (.table ⟨["Description", "IP", "MAC"], []⟩)], .ok ()) ∧
    spark_get_guest_clients_cmd env room =
      ([Call.getNetworkDevices, Call.getClients "e" 900, Call.getClients "r" 900,
        Call.getClients "r" 900, Call.getClients "o" 900, Call.getClients "r" 900,
        Call.getClients "s" 900,
        Call.postSpark room (.text "There are 0 users on the guest wireless network"),
        Call.postSpark room (.table ⟨["Description", "IP", "MAC"], []⟩)], .ok ()) := by
  have hcc : collectClients env 900 ["e", "r", "r", "o", "r", "s"] =
      ([Call.getClients "e" 900, Call.getClients "r" 900, Call.getClients "r" 900,
        Call.getClients "o" 900, Call.getClients "r" 900, Call.getClients "s" 900],
       .ok []) := by
    simp [collectClients, hcl]
  refine ⟨get_ap_list_errors pre post, get_guest_ap_list_errors pre post, rfl, ?_, ?_⟩
  · simp [spark_get_mr_clients_cmd, hdev, get_ap_list_errors, iterSerials, hcc,
      subnetFilter]
    rfl
  · simp [spark_get_guest_clients_cmd, hdev, get_guest_ap_list_errors, iterSerials,
      hcc, subnetFilter]
    rfl

/-- C10 witness: the single-element device list `['errors']`. -/
theorem errors_sentinel_char_fanout_witness :
    envErrors.netDevices =
      .ok (([] : List DeviceRow).map DevEntry.dict ++ DevEntry.str "errors" :: []) ∧
    envErrors.clients = (fun _ _ => .ok []) ∧
    spark_get_mr_clients_cmd envErrors "r1" =
      ([Call.getNetworkDevices, Call.getClients "e" 900, Call.getClients "r" 900,
        Call.getClients "r" 900, Call.getClients "o" 900, Call.getClients "r" 900,
        Call.getClients "s" 900,
        Call.postSpark "r1"
          (.text "There are 0 users on the wireless network across 6 MR devices"),
        Call.postSpark "r1" (.table ⟨["Description", "IP", "MAC"], []⟩)], .ok ()) :=
  ⟨rfl, rfl,
    (errors_sentinel_char_fanout [] [] envErrors "r1" rfl rfl).2.2.2.1⟩

end MerakiBot
